import Mathlib

/-!
# oteliris: request-tracing middleware for the iris web framework

A shallow embedding of `config.go` and `trace.go` of
`instrumentation/github.com/kataras/iris/oteliris`.

* `config`, `optionFunc` and `optionFunc.apply` embed `config.go`. The Go
  interface `Option` has the single implementation `optionFunc`, and its
  method `apply` is unexported, so the only options are the five closures the
  `With...` constructors return; they are listed as constructors here.
* `NewMiddleware` embeds `trace.go`. The handler it returns talks to the
  tracing SDK and to the iris handler chain; every such call is recorded, in
  program order, in an event trace, and a panic of the downstream chain is an
  explicit outcome.

Collaborators that are interfaces in Go (`context.Context`, `trace.Span`,
`TracerProvider`, `Tracer`, `TextMapPropagator`) are taken as they come:
`K` is the type of context values, `S` the type of span handles, and the
interfaces are records of their methods. A Go interface or func value that
may be nil is an `Option`.
-/

namespace oteliris

/-! ## Values of the tracing API -/

/-- Attribute values (`attribute.Value`), as far as this package builds them. -/
inductive Value where
  | STRING (s : String)
  | INT64 (i : Int)
deriving DecidableEq, Repr

/-- An attribute (`attribute.KeyValue`). -/
structure KeyValue where
  Key : String
  Value : Value
deriving DecidableEq, Repr

/-- Span kinds (`trace.SpanKind`). -/
inductive SpanKind where
  | SpanKindUnspecified
  | SpanKindInternal
  | SpanKindServer
  | SpanKindClient
  | SpanKindProducer
  | SpanKindConsumer
deriving DecidableEq, Repr

/-- Options handed to `Tracer.Start` (`trace.SpanStartOption`), as far as
this package builds them. -/
inductive SpanStartOption where
  | WithAttributes (attrs : List KeyValue)
  | WithSpanKind (kind : SpanKind)
deriving DecidableEq, Repr

/-- Span status codes (`codes.Code`). -/
inductive Code where
  | Unset
  | Error
  | Ok
deriving DecidableEq, Repr

/-- The attribute constructor `semconv.HTTPRoute(val)` of the
semantic-conventions library: the key `http.route` with a string value. -/
def HTTPRoute (val : String) : KeyValue :=
  { Key := "http.route", Value := Value.STRING val }

/-- The attribute constructor `semconv.HTTPStatusCode(val)` of the
semantic-conventions library: the key `http.status_code` with an integer
value. -/
def HTTPStatusCode (val : Int) : KeyValue :=
  { Key := "http.status_code", Value := Value.INT64 val }

/-! ## The request -/

/-- Request headers (`http.Header`). -/
abbrev Header := List (String × List String)

/-- The fields of `*http.Request` the middleware reads or writes. `ctx` is
the request's `context.Context`, the field `WithContext` replaces. -/
structure Request (K : Type) where
  Method : String
  URLPath : String
  Host : String
  Header : Header
  ctx : K
deriving DecidableEq, Repr

/-- The state of an `iris.Context` as the middleware observes it, one field
for each accessor it calls:

* `request` is `ctx.Request()`;
* `RouteName` is `ctx.RouteName()`, the name of the route the handler runs on;
* `RoutePath` is `ctx.GetCurrentRoute().Path()`, the registered pattern of
  the matched route (the middleware never calls it);
* `Path` is `ctx.Path()`, the path of the request being served;
* `StatusCode` is `ctx.GetStatusCode()`, the response status code so far. -/
structure Context (K : Type) where
  request : Request K
  RouteName : String
  RoutePath : String
  Path : String
  StatusCode : Int
deriving DecidableEq, Repr

/-- The value a Go `panic` carries. -/
structure PanicValue where
  msg : String
deriving DecidableEq, Repr

/-- How a call of `ctx.Next()` ends: the rest of the handler chain returns,
leaving the context in state `c`, or it panics with `v`. -/
inductive Outcome (K : Type) where
  | returned (c : Context K)
  | panicked (v : PanicValue)
deriving DecidableEq, Repr

/-- The rest of the handler chain, run by `ctx.Next()` on the current state
of the context. -/
abbrev Chain (K : Type) := Context K → Outcome K

/-! ## Collaborating interfaces -/

/-- The interface `propagation.TextMapPropagator`, method `Extract`. -/
structure TextMapPropagator (K : Type) where
  Extract : K → Header → K

/-- The interface `trace.Tracer`: `Start(ctx, spanName, opts...)` returns the
new context and the span. -/
structure Tracer (K S : Type) where
  Start : K → String → List SpanStartOption → K × S

/-- The interface `trace.TracerProvider`: `Tracer(name, opts...)`, the one
option used here being the instrumentation version. -/
structure TracerProvider (K S : Type) where
  Tracer : String → String → Tracer K S

/-- Filter is a predicate used to determine whether a given iris.Context
should be traced (config.go, `type Filter func(iris.Context) bool`): a
function of the state of the context, which it reads and does not change. -/
abbrev Filter (K : Type) := Context K → Bool

/-- SpanNameFormatter is used to set span name from iris.Context (config.go,
`type SpanNameFormatter func(iris.Context) string`). -/
abbrev SpanNameFormatter (K : Type) := Context K → String

/-! ## config.go -/

/-- The struct `config`. Its zero value `config{}` has the empty string, nil
interfaces, a nil slice and a nil func. -/
structure config (K S : Type) where
  ServerName : String := ""
  TracerProvider : Option (TracerProvider K S) := none
  Propagators : Option (TextMapPropagator K) := none
  Filters : List (Filter K) := []
  SpanNameFormatter : Option (SpanNameFormatter K) := none

/-- The values of the interface `Option`: the closures returned by the five
constructors of config.go, each with the argument it closes over. -/
inductive optionFunc (K S : Type) where
  | WithPropagators (propagators : Option (TextMapPropagator K))
  | WithTracerProvider (provider : Option (TracerProvider K S))
  | WithFilter (f : List (Filter K))
  | WithSpanNameFormatter (f : Option (SpanNameFormatter K))
  | WithServiceName (serviceName : String)

/-- The method `apply`: run the closure on the configuration. -/
def optionFunc.apply {K S : Type} : optionFunc K S → config K S → config K S
  | .WithPropagators propagators, cfg =>
    match propagators with
    | some p => { cfg with Propagators := some p }
    | none => cfg
  | .WithTracerProvider provider, cfg =>
    match provider with
    | some p => { cfg with TracerProvider := some p }
    | none => cfg
  | .WithFilter f, c => { c with Filters := c.Filters ++ f }
  | .WithSpanNameFormatter f, c => { c with SpanNameFormatter := f }
  | .WithServiceName serviceName, cfg => { cfg with ServerName := serviceName }

/-! ## The status mapping of the semantic-conventions library -/

/-- Modelled from the spec: part of `httpconv.ServerStatus` (see
`ServerStatus` below), the library's table `validRangesPerCategory` of the
valid status codes of each hundred. -/
def validRangesPerCategory (category : Int) : Option (List (Int × Int)) :=
  if category = 1 then some [(100, 103)]
  else if category = 2 then some [(200, 208), (226, 226)]
  else if category = 3 then some [(300, 305), (307, 308)]
  else if category = 4 then
    some [(400, 418), (421, 426), (428, 429), (431, 431), (451, 451)]
  else if category = 5 then some [(500, 508), (510, 511)]
  else none

/-- Modelled from the spec: part of `httpconv.ServerStatus` (see
`ServerStatus` below), the library's helper `validateHTTPStatusCode`: the
span status of a code, and whether the code is a valid HTTP status code. The
division is Go's, which truncates. -/
def validateHTTPStatusCode (code : Int) : Code × Bool :=
  let category := Int.tdiv code 100
  match validRangesPerCategory category with
  | none => (Code.Error, false)
  | some ranges =>
    if ranges.any (fun r => decide (r.1 ≤ code ∧ code ≤ r.2)) then
      if 0 < category ∧ category < 4 then (Code.Unset, true)
      else (Code.Error, true)
    else (Code.Error, false)

/-- Modelled from the spec: `httpconv.ServerStatus`, which trace.go calls on
the response status code, belongs to the OpenTelemetry semantic-conventions
library (semconv v1.13.0) and is not among the source files. The spec gives
the mapping as 200 to unset, 500 to error, and a client-error code such as
404 to an error-free status; the definition follows the library: an invalid
code is an error with a message, a valid 4xx code is unset, and any other
valid code has the status of its class (1xx to 3xx unset, 5xx error). -/
def ServerStatus (code : Int) : Code × String :=
  let (stat, valid) := validateHTTPStatusCode code
  if !valid then (stat, "Invalid HTTP status code " ++ toString code)
  else if Int.tdiv code 100 = 4 then (Code.Unset, "")
  else (stat, "")

/-! ## trace.go -/

/-- What the package takes from outside itself: the process-wide defaults
`otel.GetTracerProvider()` and `otel.GetTextMapPropagator()`, the package's
`SemVersion()`, and `httpconv.ServerRequest`, which builds the request
attributes (method, target, scheme, ...) from the server name and the
request. -/
structure Externals (K S : Type) where
  GetTracerProvider : TracerProvider K S
  GetTextMapPropagator : TextMapPropagator K
  SemVersion : String
  ServerRequest : String → Request K → List KeyValue

/-- The calls the handler makes, in program order. `FilterCall i b`: the
filter at index `i` of `cfg.Filters` was called and returned `b`.
`TracerStart parent name opts span`: `tracer.Start(parent, name, opts...)`
was called and returned `span`. `Next c`: `ctx.Next()` was called with the
context in state `c`. The last three are the calls of `SetStatus`,
`SetAttributes` and `End` on a span. -/
inductive Event (K S : Type) where
  | FilterCall (i : Nat) (result : Bool)
  | TracerStart (parent : K) (spanName : String) (opts : List SpanStartOption) (span : S)
  | Next (c : Context K)
  | SetStatus (span : S) (code : Code) (description : String)
  | SetAttributes (span : S) (kv : List KeyValue)
  | End (span : S)
deriving DecidableEq, Repr

/-- One run of the handler: the calls it made, and how it ended (it returns
with the context in some state, or the panic leaves it). -/
structure Run (K S : Type) where
  events : List (Event K S)
  outcome : Outcome K
deriving DecidableEq, Repr

/-- The constant `tracerName`. -/
def tracerName : String :=
  "go.opentelemetry.io/contrib/instrumentation/github.com/kataras/iris/oteliris"

/-- The options of `NewMiddleware` applied in order to `config{}`
(trace.go, the first loop). -/
def applyOptions {K S : Type} (opts : List (optionFunc K S)) : config K S :=
  opts.foldl (fun cfg opt => opt.apply cfg) {}

/-- The filter loop of the handler, from index `i` on: call the filters in
order until one returns false. Returns the calls made and whether the loop
ran to its end (no filter returned false). -/
def runFilters {K S : Type} (ctx : Context K) : List (Filter K) → Nat → List (Event K S) × Bool
  | [], _ => ([], true)
  | f :: fs, i =>
    if !f ctx then ([Event.FilterCall i false], false)
    else
      let rest := runFilters ctx fs (i + 1)
      (Event.FilterCall i true :: rest.1, rest.2)

/-- The assignment `*ctx.Request() = *ctx.Request().WithContext(k)`: the
request keeps every field but its context. -/
def Context.withRequestContext {K : Type} (ctx : Context K) (k : K) : Context K :=
  { ctx with request := { ctx.request with ctx := k } }

/-- The slice `opts` the handler hands to `tracer.Start`: the attributes
`append(httpconv.ServerRequest(cfg.ServerName, ctx.Request()),
semconv.HTTPRoute(ctx.Path()))` and the span kind server. -/
def startOptions {K S : Type} (env : Externals K S) (ServerName : String)
    (ctx : Context K) : List SpanStartOption :=
  [SpanStartOption.WithAttributes
     (env.ServerRequest ServerName ctx.request ++ [HTTPRoute ctx.Path]),
   SpanStartOption.WithSpanKind SpanKind.SpanKindServer]

/-- The closure `NewMiddleware` returns, over the variables it captures: the
filters and server name of `cfg`, the propagator and span-name function
after defaulting, and the tracer. `next` is the rest of the chain, which
`ctx.Next()` runs. -/
def serve {K S : Type} (env : Externals K S) (ServerName : String)
    (Filters : List (Filter K)) (Propagators : TextMapPropagator K)
    (Formatter : SpanNameFormatter K) (tracer : Tracer K S)
    (ctx : Context K) (next : Chain K) : Run K S :=
  let filtering : List (Event K S) × Bool := runFilters ctx Filters 0
  if !filtering.2 then
    -- a filter returned false: `ctx.Next(); return`
    { events := filtering.1 ++ [Event.Next ctx], outcome := next ctx }
  else
    let ctxTrace := Propagators.Extract ctx.request.ctx ctx.request.Header
    let spanName := Formatter ctx
    let opts := startOptions env ServerName ctx
    let started := tracer.Start ctxTrace spanName opts
    let span := started.2
    -- `defer span.End()`: `End` is called when the handler is left, whether
    -- it returns or a panic of the chain passes through it
    -- pass the span through the request context
    let ctx1 := ctx.withRequestContext started.1
    match next ctx1 with
    | Outcome.panicked v =>
      { events := filtering.1 ++
          [Event.TracerStart ctxTrace spanName opts span, Event.Next ctx1, Event.End span],
        outcome := Outcome.panicked v }
    | Outcome.returned ctx2 =>
      let status := ServerStatus ctx2.StatusCode
      { events := filtering.1 ++
          [Event.TracerStart ctxTrace spanName opts span, Event.Next ctx1,
           Event.SetStatus span status.1 status.2,
           Event.SetAttributes span [HTTPStatusCode ctx2.StatusCode],
           Event.End span],
        outcome := Outcome.returned ctx2 }

/-- The tracer provider after defaulting: the configured one, or the global
provider when none was configured. -/
def resolveTracerProvider {K S : Type} (env : Externals K S) (cfg : config K S) :
    TracerProvider K S :=
  match cfg.TracerProvider with
  | none => env.GetTracerProvider
  | some p => p

/-- The propagator after defaulting. -/
def resolvePropagators {K S : Type} (env : Externals K S) (cfg : config K S) :
    TextMapPropagator K :=
  match cfg.Propagators with
  | none => env.GetTextMapPropagator
  | some p => p

/-- The span-name function after defaulting: `ctx.RouteName()` when none
was configured. -/
def resolveSpanNameFormatter {K S : Type} (cfg : config K S) : SpanNameFormatter K :=
  match cfg.SpanNameFormatter with
  | none => fun ctx => ctx.RouteName
  | some f => f

/-- NewMiddleware returns middleware that will trace incoming requests.
opts parameter can be used to configure the middleware. -/
def NewMiddleware {K S : Type} (env : Externals K S) (opts : List (optionFunc K S)) :
    Context K → Chain K → Run K S :=
  let cfg := applyOptions opts
  let tracer := (resolveTracerProvider env cfg).Tracer tracerName env.SemVersion
  serve env cfg.ServerName cfg.Filters (resolvePropagators env cfg)
    (resolveSpanNameFormatter cfg) tracer

/-! ## Reading an event trace -/

/-- One call of `tracer.Start`: its arguments and the span it returned. -/
structure SpanStart (K S : Type) where
  parent : K
  spanName : String
  opts : List SpanStartOption
  span : S
deriving DecidableEq, Repr

/-- The calls of `tracer.Start` in a trace, in order. -/
def spanStarts {K S : Type} (evs : List (Event K S)) : List (SpanStart K S) :=
  evs.filterMap fun e =>
    match e with
    | Event.TracerStart parent spanName opts span => some ⟨parent, spanName, opts, span⟩
    | _ => none

/-- The calls of `ctx.Next()` in a trace: the state of the context at each. -/
def nextCalls {K S : Type} (evs : List (Event K S)) : List (Context K) :=
  evs.filterMap fun e =>
    match e with
    | Event.Next c => some c
    | _ => none

/-- The indices of the filters called in a trace, in order of the calls. -/
def filterCalls {K S : Type} (evs : List (Event K S)) : List Nat :=
  evs.filterMap fun e =>
    match e with
    | Event.FilterCall i _ => some i
    | _ => none

/-- The spans ended in a trace, one entry for each call of `End`. -/
def spanEnds {K S : Type} (evs : List (Event K S)) : List S :=
  evs.filterMap fun e =>
    match e with
    | Event.End span => some span
    | _ => none

/-- The calls of `SetStatus` in a trace: span, code and description. -/
def statusSets {K S : Type} (evs : List (Event K S)) : List (S × Code × String) :=
  evs.filterMap fun e =>
    match e with
    | Event.SetStatus span code description => some (span, code, description)
    | _ => none

/-- The calls of `SetAttributes` in a trace: span and attributes. -/
def attributeSets {K S : Type} (evs : List (Event K S)) : List (S × List KeyValue) :=
  evs.filterMap fun e =>
    match e with
    | Event.SetAttributes span kv => some (span, kv)
    | _ => none

/-- The part of a trace before the first call of `ctx.Next()`. -/
def beforeNext {K S : Type} (evs : List (Event K S)) : List (Event K S) :=
  evs.takeWhile fun e =>
    match e with
    | Event.Next _ => false
    | _ => true

/-- The attributes a list of start options puts on the span: those of its
`WithAttributes` options, in order. -/
def startAttributes (opts : List SpanStartOption) : List KeyValue :=
  opts.flatMap fun o =>
    match o with
    | SpanStartOption.WithAttributes attrs => attrs
    | _ => []

/-- The values a list of attributes holds under a key. -/
def valuesOf (key : String) (attrs : List KeyValue) : List Value :=
  (attrs.filter fun kv => kv.Key == key).map fun kv => kv.Value

/-- The number of filters the loop calls: all of them when none rejects the
request, else those up to and including the first that rejects it. -/
def filtersInvoked {K : Type} (ctx : Context K) (fs : List (Filter K)) : Nat :=
  min fs.length ((fs.takeWhile fun f => f ctx).length + 1)

/-- The argument of the last `WithSpanNameFormatter` of an option list:
`none` when the list has no such option, `some none` when the last one
carries a nil function. -/
def lastSpanNameFormatter {K S : Type} :
    List (optionFunc K S) → Option (Option (SpanNameFormatter K))
  | [] => none
  | o :: os =>
    match lastSpanNameFormatter os with
    | some f => some f
    | none =>
      match o with
      | optionFunc.WithSpanNameFormatter f => some f
      | _ => none

/-- The span-name function an option list sets: the function of its last
`WithSpanNameFormatter` option, when there is one and it is not nil. -/
def configuredSpanNameFormatter {K S : Type} (opts : List (optionFunc K S)) :
    Option (SpanNameFormatter K) :=
  (lastSpanNameFormatter opts).join

/-- The propagator an option list configures, read off the list itself: the
argument of its last `WithPropagators` option whose argument is not nil
(`WithPropagators(nil)` configures nothing); `none` when there is no such
option. -/
def lastPropagators {K S : Type} : List (optionFunc K S) → Option (TextMapPropagator K)
  | [] => none
  | o :: os =>
    match lastPropagators os with
    | some p => some p
    | none =>
      match o with
      | optionFunc.WithPropagators (some p) => some p
      | _ => none

/-- The tracer provider an option list configures, read off the list itself:
the argument of its last `WithTracerProvider` option whose argument is not
nil; `none` when there is no such option. -/
def lastTracerProvider {K S : Type} : List (optionFunc K S) → Option (TracerProvider K S)
  | [] => none
  | o :: os =>
    match lastTracerProvider os with
    | some p => some p
    | none =>
      match o with
      | optionFunc.WithTracerProvider (some p) => some p
      | _ => none

/-- The configured propagator of a middleware: the one its option list
configures, or the process-wide `otel.GetTextMapPropagator()` when the list
configures none. -/
def configuredPropagators {K S : Type} (env : Externals K S) (opts : List (optionFunc K S)) :
    TextMapPropagator K :=
  match lastPropagators opts with
  | some p => p
  | none => env.GetTextMapPropagator

/-- The tracer of a middleware: the tracer named `tracerName`, with the
package's version, of the provider its option list configures, or of the
process-wide `otel.GetTracerProvider()` when the list configures none. -/
def configuredTracer {K S : Type} (env : Externals K S) (opts : List (optionFunc K S)) :
    Tracer K S :=
  match lastTracerProvider opts with
  | some p => p.Tracer tracerName env.SemVersion
  | none => env.GetTracerProvider.Tracer tracerName env.SemVersion

/-- The arguments of the `WithFilter` options of a list, in option order. -/
def filterArguments {K S : Type} (opts : List (optionFunc K S)) : List (Filter K) :=
  opts.flatMap fun o =>
    match o with
    | optionFunc.WithFilter f => f
    | _ => []

/-! ## A concrete setting

Contexts are strings, span handles are numbers; the tracer and the
propagator write what they did into the context they return. -/

/-- A propagator that records the `traceparent` header in the context. -/
def demoPropagator : TextMapPropagator String where
  Extract := fun k header =>
    match header.lookup "traceparent" with
    | some (v :: _) => k ++ "+remote:" ++ v
    | _ => k

/-- A provider whose tracers record the span name in the context and hand
out span 1. -/
def demoProvider : TracerProvider String Nat where
  Tracer := fun _ _ => { Start := fun parent spanName _ => (parent ++ "+span:" ++ spanName, 1) }

/-- The collaborators of the concrete setting. -/
def demoEnv : Externals String Nat where
  GetTracerProvider := demoProvider
  GetTextMapPropagator := demoPropagator
  SemVersion := "0.0.1"
  ServerRequest := fun server req =>
    [{ Key := "http.method", Value := Value.STRING req.Method },
     { Key := "net.host.name", Value := Value.STRING server }]

/-- The request `GET /items/42`, matched by the route registered with the
pattern `/items/{id}`, before any handler has written a status. -/
def demoCtx : Context String where
  request :=
    { Method := "GET", URLPath := "/items/42", Host := "localhost",
      Header := [("traceparent", ["00-0af7651916cd43dd8448eb211c80319c-b7ad6b7169203331-01"])],
      ctx := "background" }
  RouteName := "GET/items/\x7bid\x7d"
  RoutePath := "/items/\x7bid\x7d"
  Path := "/items/42"
  StatusCode := 200

/-- A propagator other than the global one of `demoEnv`: it ignores the
headers and marks the context. -/
def demoCustomPropagator : TextMapPropagator String where
  Extract := fun k _ => k ++ "+custom"

/-- A provider other than the global one of `demoEnv`: its tracers hand out
span 7 and mark the context. -/
def demoCustomProvider : TracerProvider String Nat where
  Tracer := fun _ _ => { Start := fun parent spanName _ => (parent ++ "+own:" ++ spanName, 7) }

/-- Options that configure the custom propagator and provider, each followed
by a nil option of the same kind. -/
def demoCustomOptions : List (optionFunc String Nat) :=
  [optionFunc.WithPropagators (some demoCustomPropagator),
   optionFunc.WithTracerProvider (some demoCustomProvider),
   optionFunc.WithPropagators none,
   optionFunc.WithTracerProvider none]

/-- A chain that answers 404 and returns. -/
def demoNotFound : Chain String :=
  fun c => Outcome.returned { c with StatusCode := 404 }

/-- A chain that panics. -/
def demoPanic : Chain String :=
  fun _ => Outcome.panicked { msg := "boom" }

/-- The state in which `demoNotFound` leaves the context of the traced
request `demoCtx`: the span context in the request, status 404. -/
def demoAnswered : Context String :=
  { (demoCtx.withRequestContext
      "background+remote:00-0af7651916cd43dd8448eb211c80319c-b7ad6b7169203331-01+span:GET/items/\x7bid\x7d")
    with StatusCode := 404 }

/-! ## The filter loop -/

theorem runFilters_snd {K S : Type} (ctx : Context K) (fs : List (Filter K)) (i : Nat) :
    (runFilters (S := S) ctx fs i).2 = fs.all fun f => f ctx := by
  induction fs generalizing i with
  | nil => rfl
  | cons f fs ih =>
    cases hf : f ctx <;> simp [runFilters, hf, ih]

theorem runFilters_passed_iff {K S : Type} (ctx : Context K) (fs : List (Filter K)) (i : Nat) :
    (runFilters (S := S) ctx fs i).2 = true ↔ ∀ f ∈ fs, f ctx = true := by
  rw [runFilters_snd]
  simp [List.all_eq_true]

theorem runFilters_rejected_iff {K S : Type} (ctx : Context K) (fs : List (Filter K)) (i : Nat) :
    (runFilters (S := S) ctx fs i).2 = false ↔ ∃ f ∈ fs, f ctx = false := by
  rw [runFilters_snd]
  simp [List.all_eq_false]

theorem spanStarts_runFilters {K S : Type} (ctx : Context K) (fs : List (Filter K)) (i : Nat) :
    spanStarts (runFilters (S := S) ctx fs i).1 = [] := by
  induction fs generalizing i with
  | nil => rfl
  | cons f fs ih =>
    cases hf : f ctx
    · simp [runFilters, hf, spanStarts]
    · have := ih (i + 1)
      simp only [spanStarts] at this
      simp [runFilters, hf, spanStarts, this]

theorem nextCalls_runFilters {K S : Type} (ctx : Context K) (fs : List (Filter K)) (i : Nat) :
    nextCalls (runFilters (S := S) ctx fs i).1 = [] := by
  induction fs generalizing i with
  | nil => rfl
  | cons f fs ih =>
    cases hf : f ctx
    · simp [runFilters, hf, nextCalls]
    · have := ih (i + 1)
      simp only [nextCalls] at this
      simp [runFilters, hf, nextCalls, this]

theorem spanEnds_runFilters {K S : Type} (ctx : Context K) (fs : List (Filter K)) (i : Nat) :
    spanEnds (runFilters (S := S) ctx fs i).1 = [] := by
  induction fs generalizing i with
  | nil => rfl
  | cons f fs ih =>
    cases hf : f ctx
    · simp [runFilters, hf, spanEnds]
    · have := ih (i + 1)
      simp only [spanEnds] at this
      simp [runFilters, hf, spanEnds, this]

theorem statusSets_runFilters {K S : Type} (ctx : Context K) (fs : List (Filter K)) (i : Nat) :
    statusSets (runFilters (S := S) ctx fs i).1 = [] := by
  induction fs generalizing i with
  | nil => rfl
  | cons f fs ih =>
    cases hf : f ctx
    · simp [runFilters, hf, statusSets]
    · have := ih (i + 1)
      simp only [statusSets] at this
      simp [runFilters, hf, statusSets, this]

theorem attributeSets_runFilters {K S : Type} (ctx : Context K) (fs : List (Filter K))
    (i : Nat) : attributeSets (runFilters (S := S) ctx fs i).1 = [] := by
  induction fs generalizing i with
  | nil => rfl
  | cons f fs ih =>
    cases hf : f ctx
    · simp [runFilters, hf, attributeSets]
    · have := ih (i + 1)
      simp only [attributeSets] at this
      simp [runFilters, hf, attributeSets, this]

theorem beforeNext_runFilters_append {K S : Type} (ctx : Context K) (fs : List (Filter K))
    (i : Nat) (c : Context K) (rest : List (Event K S)) :
    beforeNext ((runFilters (S := S) ctx fs i).1 ++ Event.Next c :: rest)
      = (runFilters (S := S) ctx fs i).1 := by
  induction fs generalizing i with
  | nil => simp [runFilters, beforeNext]
  | cons f fs ih =>
    cases hf : f ctx
    · simp [runFilters, hf, beforeNext]
    · have := ih (i + 1)
      simp only [beforeNext] at this
      simp [runFilters, hf, beforeNext, this]

theorem beforeNext_runFilters_append_cons {K S : Type} (ctx : Context K)
    (fs : List (Filter K)) (i : Nat) (parent : K) (spanName : String)
    (opts : List SpanStartOption) (span : S) (c : Context K) (rest : List (Event K S)) :
    beforeNext (((runFilters (S := S) ctx fs i).1 ++ [Event.TracerStart parent spanName opts span])
        ++ Event.Next c :: rest)
      = (runFilters (S := S) ctx fs i).1 ++ [Event.TracerStart parent spanName opts span] := by
  induction fs generalizing i with
  | nil => simp [runFilters, beforeNext]
  | cons f fs ih =>
    cases hf : f ctx
    · simp [runFilters, hf, beforeNext]
    · have := ih (i + 1)
      simp only [beforeNext] at this
      simp only [List.append_assoc, List.singleton_append] at this
      simp [runFilters, hf, beforeNext, this]

theorem filterCalls_runFilters {K S : Type} (ctx : Context K) (fs : List (Filter K)) (i : Nat) :
    filterCalls (runFilters (S := S) ctx fs i).1 = List.range' i (filtersInvoked ctx fs) := by
  induction fs generalizing i with
  | nil => simp [runFilters, filterCalls, filtersInvoked]
  | cons f fs ih =>
    cases hf : f ctx
    · simp [runFilters, hf, filterCalls, filtersInvoked, List.takeWhile]
    · have := ih (i + 1)
      simp only [filterCalls, filtersInvoked] at this
      simp [runFilters, hf, filterCalls, filtersInvoked, List.takeWhile, this,
        Nat.add_min_add_right, List.range'_succ]

/-! ## The two paths of the handler -/

theorem serve_rejected {K S : Type} (env : Externals K S) (ServerName : String)
    (Filters : List (Filter K)) (Propagators : TextMapPropagator K)
    (Formatter : SpanNameFormatter K) (tracer : Tracer K S) (ctx : Context K)
    (next : Chain K) (h : ∃ f ∈ Filters, f ctx = false) :
    serve env ServerName Filters Propagators Formatter tracer ctx next
      = { events := (runFilters ctx Filters 0).1 ++ [Event.Next ctx], outcome := next ctx } := by
  have h2 := (runFilters_rejected_iff (S := S) ctx Filters 0).mpr h
  simp [serve, h2]

theorem serve_traced_returned {K S : Type} (env : Externals K S) (ServerName : String)
    (Filters : List (Filter K)) (Propagators : TextMapPropagator K)
    (Formatter : SpanNameFormatter K) (tracer : Tracer K S) (ctx : Context K)
    (next : Chain K) (h : ∀ f ∈ Filters, f ctx = true)
    (parent : K) (hp : parent = Propagators.Extract ctx.request.ctx ctx.request.Header)
    (started : K × S)
    (hs : started = tracer.Start parent (Formatter ctx) (startOptions env ServerName ctx))
    (ctx2 : Context K) (hn : next (ctx.withRequestContext started.1) = Outcome.returned ctx2) :
    serve env ServerName Filters Propagators Formatter tracer ctx next
      = { events := (runFilters ctx Filters 0).1 ++
            [Event.TracerStart parent (Formatter ctx) (startOptions env ServerName ctx)
               started.2,
             Event.Next (ctx.withRequestContext started.1),
             Event.SetStatus started.2 (ServerStatus ctx2.StatusCode).1
               (ServerStatus ctx2.StatusCode).2,
             Event.SetAttributes started.2 [HTTPStatusCode ctx2.StatusCode],
             Event.End started.2],
          outcome := Outcome.returned ctx2 } := by
  have h2 := (runFilters_passed_iff (S := S) ctx Filters 0).mpr h
  subst hp hs
  simp [serve, h2, hn]

theorem serve_traced_panicked {K S : Type} (env : Externals K S) (ServerName : String)
    (Filters : List (Filter K)) (Propagators : TextMapPropagator K)
    (Formatter : SpanNameFormatter K) (tracer : Tracer K S) (ctx : Context K)
    (next : Chain K) (h : ∀ f ∈ Filters, f ctx = true)
    (parent : K) (hp : parent = Propagators.Extract ctx.request.ctx ctx.request.Header)
    (started : K × S)
    (hs : started = tracer.Start parent (Formatter ctx) (startOptions env ServerName ctx))
    (v : PanicValue) (hn : next (ctx.withRequestContext started.1) = Outcome.panicked v) :
    serve env ServerName Filters Propagators Formatter tracer ctx next
      = { events := (runFilters ctx Filters 0).1 ++
            [Event.TracerStart parent (Formatter ctx) (startOptions env ServerName ctx)
               started.2,
             Event.Next (ctx.withRequestContext started.1),
             Event.End started.2],
          outcome := Outcome.panicked v } := by
  have h2 := (runFilters_passed_iff (S := S) ctx Filters 0).mpr h
  subst hp hs
  simp [serve, h2, hn]

/-- On the traced path, whatever the chain does: the trace is the filter
calls, the call of `tracer.Start`, the call of `ctx.Next()`, and a tail that
depends on how the chain ended. -/
theorem serve_traced {K S : Type} (env : Externals K S) (ServerName : String)
    (Filters : List (Filter K)) (Propagators : TextMapPropagator K)
    (Formatter : SpanNameFormatter K) (tracer : Tracer K S) (ctx : Context K)
    (next : Chain K) (h : ∀ f ∈ Filters, f ctx = true)
    (parent : K) (hp : parent = Propagators.Extract ctx.request.ctx ctx.request.Header)
    (started : K × S)
    (hs : started = tracer.Start parent (Formatter ctx) (startOptions env ServerName ctx)) :
    ∃ tail : List (Event K S),
      (serve env ServerName Filters Propagators Formatter tracer ctx next).events
        = (runFilters ctx Filters 0).1 ++
            (Event.TracerStart parent (Formatter ctx) (startOptions env ServerName ctx)
               started.2 ::
             Event.Next (ctx.withRequestContext started.1) :: tail) ∧
      spanStarts tail = [] ∧ nextCalls tail = [] ∧ spanEnds tail = [started.2] ∧
      (serve env ServerName Filters Propagators Formatter tracer ctx next).outcome
        = next (ctx.withRequestContext started.1) := by
  cases hn : next (ctx.withRequestContext started.1) with
  | returned ctx2 =>
    rw [serve_traced_returned env ServerName Filters Propagators Formatter tracer ctx next h
      parent hp started hs ctx2 hn]
    exact ⟨_, rfl, rfl, rfl, rfl, rfl⟩
  | panicked v =>
    rw [serve_traced_panicked env ServerName Filters Propagators Formatter tracer ctx next h
      parent hp started hs v hn]
    exact ⟨_, rfl, rfl, rfl, rfl, rfl⟩

theorem spanStarts_append {K S : Type} (a b : List (Event K S)) :
    spanStarts (a ++ b) = spanStarts a ++ spanStarts b := by
  simp [spanStarts]

theorem nextCalls_append {K S : Type} (a b : List (Event K S)) :
    nextCalls (a ++ b) = nextCalls a ++ nextCalls b := by
  simp [nextCalls]

theorem spanEnds_append {K S : Type} (a b : List (Event K S)) :
    spanEnds (a ++ b) = spanEnds a ++ spanEnds b := by
  simp [spanEnds]

theorem filterCalls_append {K S : Type} (a b : List (Event K S)) :
    filterCalls (a ++ b) = filterCalls a ++ filterCalls b := by
  simp [filterCalls]

theorem statusSets_append {K S : Type} (a b : List (Event K S)) :
    statusSets (a ++ b) = statusSets a ++ statusSets b := by
  simp [statusSets]

theorem attributeSets_append {K S : Type} (a b : List (Event K S)) :
    attributeSets (a ++ b) = attributeSets a ++ attributeSets b := by
  simp [attributeSets]

/-- The calls of `tracer.Start` and of `ctx.Next()` on the traced path. -/
theorem serve_traced_calls {K S : Type} (env : Externals K S) (ServerName : String)
    (Filters : List (Filter K)) (Propagators : TextMapPropagator K)
    (Formatter : SpanNameFormatter K) (tracer : Tracer K S) (ctx : Context K)
    (next : Chain K) (h : ∀ f ∈ Filters, f ctx = true)
    (parent : K) (hp : parent = Propagators.Extract ctx.request.ctx ctx.request.Header)
    (started : K × S)
    (hs : started = tracer.Start parent (Formatter ctx) (startOptions env ServerName ctx))
    (run : Run K S)
    (hr : run = serve env ServerName Filters Propagators Formatter tracer ctx next) :
    spanStarts run.events
      = [⟨parent, Formatter ctx, startOptions env ServerName ctx, started.2⟩] ∧
    spanStarts (beforeNext run.events)
      = [⟨parent, Formatter ctx, startOptions env ServerName ctx, started.2⟩] ∧
    nextCalls run.events = [ctx.withRequestContext started.1] ∧
    spanEnds run.events = [started.2] ∧
    run.outcome = next (ctx.withRequestContext started.1) := by
  obtain ⟨tail, hev, hts, htn, hte, hout⟩ := serve_traced env ServerName Filters Propagators
    Formatter tracer ctx next h parent hp started hs
  rw [hr, hev]
  refine ⟨?_, ?_, ?_, ?_, hout⟩
  · rw [spanStarts_append, spanStarts_runFilters]
    show _ :: spanStarts tail = _
    rw [hts]
  · rw [List.append_cons, beforeNext_runFilters_append_cons, spanStarts_append,
      spanStarts_runFilters]
    rfl
  · rw [nextCalls_append, nextCalls_runFilters]
    show _ :: nextCalls tail = _
    rw [htn]
  · rw [spanEnds_append, spanEnds_runFilters]
    show spanEnds tail = _
    rw [hte]

/-- The filter calls of a run are those of the filter loop. -/
theorem serve_filterCalls {K S : Type} (env : Externals K S) (ServerName : String)
    (Filters : List (Filter K)) (Propagators : TextMapPropagator K)
    (Formatter : SpanNameFormatter K) (tracer : Tracer K S) (ctx : Context K)
    (next : Chain K) :
    filterCalls (serve env ServerName Filters Propagators Formatter tracer ctx next).events
      = List.range (filtersInvoked ctx Filters) := by
  rw [List.range_eq_range', ← filterCalls_runFilters (S := S) ctx Filters 0]
  by_cases h : ∀ f ∈ Filters, f ctx = true
  · cases hn : next (ctx.withRequestContext
      (tracer.Start (Propagators.Extract ctx.request.ctx ctx.request.Header) (Formatter ctx)
        (startOptions env ServerName ctx)).1) with
    | returned ctx2 =>
      rw [serve_traced_returned env ServerName Filters Propagators Formatter tracer ctx next h
        _ rfl _ rfl ctx2 hn, filterCalls_append]
      exact List.append_nil _
    | panicked v =>
      rw [serve_traced_panicked env ServerName Filters Propagators Formatter tracer ctx next h
        _ rfl _ rfl v hn, filterCalls_append]
      exact List.append_nil _
  · have h2 : ∃ f ∈ Filters, f ctx = false := by
      simpa using h
    rw [serve_rejected env ServerName Filters Propagators Formatter tracer ctx next h2,
      filterCalls_append]
    exact List.append_nil _

theorem filtersInvoked_of_all_pass {K : Type} (ctx : Context K) (fs : List (Filter K))
    (h : ∀ f ∈ fs, f ctx = true) : filtersInvoked ctx fs = fs.length := by
  have : fs.takeWhile (fun f => f ctx) = fs := by
    rw [List.takeWhile_eq_self_iff]
    exact h
  simp [filtersInvoked, this]

theorem filtersInvoked_of_first_rejection {K : Type} (ctx : Context K) (fs : List (Filter K))
    (k : Nat) (hk : k < fs.length) (hrej : fs[k] ctx = false)
    (hpass : ∀ j (hj : j < k), fs[j] ctx = true) : filtersInvoked ctx fs = k + 1 := by
  induction fs generalizing k with
  | nil => simp at hk
  | cons f fs ih =>
    cases k with
    | zero =>
      have hf : f ctx = false := by simpa using hrej
      simp [filtersInvoked, List.takeWhile, hf]
    | succ k =>
      have hf : f ctx = true := by simpa using hpass 0 (Nat.succ_pos k)
      have hk2 : k < fs.length := by simpa using hk
      have := ih k hk2 (by simpa using hrej) (fun j hj => by
        simpa using hpass (j + 1) (Nat.succ_lt_succ hj))
      simp only [filtersInvoked] at this
      simp [filtersInvoked, List.takeWhile, hf, Nat.add_min_add_right, this]

/-- The calls of `SetStatus` and `SetAttributes` when the chain returns. -/
theorem serve_traced_returned_sets {K S : Type} (env : Externals K S) (ServerName : String)
    (Filters : List (Filter K)) (Propagators : TextMapPropagator K)
    (Formatter : SpanNameFormatter K) (tracer : Tracer K S) (ctx : Context K)
    (next : Chain K) (h : ∀ f ∈ Filters, f ctx = true)
    (parent : K) (hp : parent = Propagators.Extract ctx.request.ctx ctx.request.Header)
    (started : K × S)
    (hs : started = tracer.Start parent (Formatter ctx) (startOptions env ServerName ctx))
    (ctx2 : Context K) (hn : next (ctx.withRequestContext started.1) = Outcome.returned ctx2)
    (run : Run K S)
    (hr : run = serve env ServerName Filters Propagators Formatter tracer ctx next) :
    statusSets run.events
      = [(started.2, (ServerStatus ctx2.StatusCode).1, (ServerStatus ctx2.StatusCode).2)] ∧
    attributeSets run.events = [(started.2, [HTTPStatusCode ctx2.StatusCode])] := by
  rw [hr, serve_traced_returned env ServerName Filters Propagators Formatter tracer ctx next h
    parent hp started hs ctx2 hn]
  constructor
  · rw [statusSets_append, statusSets_runFilters]
    rfl
  · rw [attributeSets_append, attributeSets_runFilters]
    rfl

/-- The last call on the traced path is `span.End()`. -/
theorem serve_traced_last {K S : Type} (env : Externals K S) (ServerName : String)
    (Filters : List (Filter K)) (Propagators : TextMapPropagator K)
    (Formatter : SpanNameFormatter K) (tracer : Tracer K S) (ctx : Context K)
    (next : Chain K) (h : ∀ f ∈ Filters, f ctx = true)
    (parent : K) (hp : parent = Propagators.Extract ctx.request.ctx ctx.request.Header)
    (started : K × S)
    (hs : started = tracer.Start parent (Formatter ctx) (startOptions env ServerName ctx)) :
    (serve env ServerName Filters Propagators Formatter tracer ctx next).events.getLast?
      = some (Event.End started.2) := by
  cases hn : next (ctx.withRequestContext started.1) with
  | returned ctx2 =>
    rw [serve_traced_returned env ServerName Filters Propagators Formatter tracer ctx next h
      parent hp started hs ctx2 hn]
    simp [List.getLast?_append]
  | panicked v =>
    rw [serve_traced_panicked env ServerName Filters Propagators Formatter tracer ctx next h
      parent hp started hs v hn]
    simp [List.getLast?_append]

/-! ## Applying options -/

theorem foldl_apply_Filters {K S : Type} (opts : List (optionFunc K S)) (c : config K S) :
    (opts.foldl (fun cfg opt => opt.apply cfg) c).Filters
      = c.Filters ++ filterArguments opts := by
  induction opts generalizing c with
  | nil => simp [filterArguments]
  | cons o os ih =>
    rw [List.foldl_cons, ih]
    cases o with
    | WithPropagators p => cases p <;> simp [optionFunc.apply, filterArguments]
    | WithTracerProvider p => cases p <;> simp [optionFunc.apply, filterArguments]
    | WithFilter f => simp [optionFunc.apply, filterArguments]
    | WithSpanNameFormatter f => simp [optionFunc.apply, filterArguments]
    | WithServiceName n => simp [optionFunc.apply, filterArguments]

theorem foldl_apply_SpanNameFormatter {K S : Type} (opts : List (optionFunc K S))
    (c : config K S) :
    (opts.foldl (fun cfg opt => opt.apply cfg) c).SpanNameFormatter
      = match lastSpanNameFormatter opts with
        | some f => f
        | none => c.SpanNameFormatter := by
  induction opts generalizing c with
  | nil => rfl
  | cons o os ih =>
    rw [List.foldl_cons, ih]
    cases hl : lastSpanNameFormatter os with
    | some f => simp [lastSpanNameFormatter, hl]
    | none =>
      cases o with
      | WithPropagators p => cases p <;> simp [optionFunc.apply, lastSpanNameFormatter, hl]
      | WithTracerProvider p => cases p <;> simp [optionFunc.apply, lastSpanNameFormatter, hl]
      | WithFilter f => simp [optionFunc.apply, lastSpanNameFormatter, hl]
      | WithSpanNameFormatter f => simp [optionFunc.apply, lastSpanNameFormatter, hl]
      | WithServiceName n => simp [optionFunc.apply, lastSpanNameFormatter, hl]

theorem foldl_apply_Propagators {K S : Type} (opts : List (optionFunc K S))
    (c : config K S) :
    (opts.foldl (fun cfg opt => opt.apply cfg) c).Propagators
      = match lastPropagators opts with
        | some p => some p
        | none => c.Propagators := by
  induction opts generalizing c with
  | nil => rfl
  | cons o os ih =>
    rw [List.foldl_cons, ih]
    cases hl : lastPropagators os with
    | some p => simp [lastPropagators, hl]
    | none =>
      cases o with
      | WithPropagators p => cases p <;> simp [optionFunc.apply, lastPropagators, hl]
      | WithTracerProvider p => cases p <;> simp [optionFunc.apply, lastPropagators, hl]
      | WithFilter f => simp [optionFunc.apply, lastPropagators, hl]
      | WithSpanNameFormatter f => simp [optionFunc.apply, lastPropagators, hl]
      | WithServiceName n => simp [optionFunc.apply, lastPropagators, hl]

theorem foldl_apply_TracerProvider {K S : Type} (opts : List (optionFunc K S))
    (c : config K S) :
    (opts.foldl (fun cfg opt => opt.apply cfg) c).TracerProvider
      = match lastTracerProvider opts with
        | some p => some p
        | none => c.TracerProvider := by
  induction opts generalizing c with
  | nil => rfl
  | cons o os ih =>
    rw [List.foldl_cons, ih]
    cases hl : lastTracerProvider os with
    | some p => simp [lastTracerProvider, hl]
    | none =>
      cases o with
      | WithPropagators p => cases p <;> simp [optionFunc.apply, lastTracerProvider, hl]
      | WithTracerProvider p => cases p <;> simp [optionFunc.apply, lastTracerProvider, hl]
      | WithFilter f => simp [optionFunc.apply, lastTracerProvider, hl]
      | WithSpanNameFormatter f => simp [optionFunc.apply, lastTracerProvider, hl]
      | WithServiceName n => simp [optionFunc.apply, lastTracerProvider, hl]

/-- The propagator the handler is built with is the configured one. -/
theorem resolvePropagators_applyOptions {K S : Type} (env : Externals K S)
    (opts : List (optionFunc K S)) :
    resolvePropagators env (applyOptions opts) = configuredPropagators env opts := by
  unfold resolvePropagators applyOptions configuredPropagators
  rw [foldl_apply_Propagators]
  cases lastPropagators opts <;> rfl

/-- The tracer the handler is built with is the configured one. -/
theorem resolveTracerProvider_applyOptions {K S : Type} (env : Externals K S)
    (opts : List (optionFunc K S)) :
    (resolveTracerProvider env (applyOptions opts)).Tracer tracerName env.SemVersion
      = configuredTracer env opts := by
  unfold resolveTracerProvider applyOptions configuredTracer
  rw [foldl_apply_TracerProvider]
  cases lastTracerProvider opts <;> rfl

theorem applyOptions_SpanNameFormatter {K S : Type} (opts : List (optionFunc K S)) :
    (applyOptions opts).SpanNameFormatter = configuredSpanNameFormatter opts := by
  unfold applyOptions configuredSpanNameFormatter
  rw [foldl_apply_SpanNameFormatter]
  cases lastSpanNameFormatter opts <;> rfl

/-! ## Filters -/

/-- C1: when some configured filter returns false for the request, the
handler of `NewMiddleware` starts no span, calls `ctx.Next()` exactly once,
on the context as it received it (the request's context is not replaced),
and ends the way the downstream chain ends on that unmodified context. -/
theorem rejected_request_passes_through {K S : Type} (env : Externals K S)
    (opts : List (optionFunc K S)) (ctx : Context K) (next : Chain K)
    (h : ∃ f ∈ (applyOptions opts).Filters, f ctx = false) :
    spanStarts (NewMiddleware env opts ctx next).events = [] ∧
    nextCalls (NewMiddleware env opts ctx next).events = [ctx] ∧
    (NewMiddleware env opts ctx next).outcome = next ctx := by
  unfold NewMiddleware
  rw [serve_rejected _ _ _ _ _ _ _ _ h]
  rw [spanStarts_append, nextCalls_append, spanStarts_runFilters, nextCalls_runFilters]
  exact ⟨rfl, rfl, rfl⟩

theorem rejected_request_passes_through_witness :
    (∃ f ∈ (applyOptions (K := String) (S := Nat)
        [optionFunc.WithFilter [fun _ => true, fun _ => false]]).Filters,
      f demoCtx = false) ∧
    spanStarts (NewMiddleware demoEnv
      [optionFunc.WithFilter [fun _ => true, fun _ => false]] demoCtx demoNotFound).events = [] ∧
    nextCalls (NewMiddleware demoEnv
      [optionFunc.WithFilter [fun _ => true, fun _ => false]] demoCtx demoNotFound).events
        = [demoCtx] ∧
    (NewMiddleware demoEnv
      [optionFunc.WithFilter [fun _ => true, fun _ => false]] demoCtx demoNotFound).outcome
        = demoNotFound demoCtx :=
  have h : ∃ f ∈ (applyOptions (K := String) (S := Nat)
      [optionFunc.WithFilter [fun _ => true, fun _ => false]]).Filters, f demoCtx = false :=
    ⟨fun _ => false, by simp [applyOptions, optionFunc.apply], rfl⟩
  ⟨h, rejected_request_passes_through demoEnv _ demoCtx demoNotFound h⟩

/-- C2: when no filter is configured, and more generally when every
configured filter returns true for the request, the handler of
`NewMiddleware` calls `tracer.Start` exactly once, with the span kind server
among the start options, and that call comes before the one call of
`ctx.Next()`. -/
theorem traced_request_starts_one_server_span {K S : Type} (env : Externals K S)
    (opts : List (optionFunc K S)) (ctx : Context K) (next : Chain K)
    (h : (applyOptions opts).Filters = [] ∨ ∀ f ∈ (applyOptions opts).Filters, f ctx = true) :
    ∃ start : SpanStart K S,
      spanStarts (NewMiddleware env opts ctx next).events = [start] ∧
      spanStarts (beforeNext (NewMiddleware env opts ctx next).events) = [start] ∧
      (∃ attrs, start.opts = [SpanStartOption.WithAttributes attrs,
        SpanStartOption.WithSpanKind SpanKind.SpanKindServer]) ∧
      (nextCalls (NewMiddleware env opts ctx next).events).length = 1 := by
  have h2 : ∀ f ∈ (applyOptions opts).Filters, f ctx = true := by
    rcases h with h | h
    · intro f hf
      rw [h] at hf
      cases hf
    · exact h
  obtain ⟨hs, hb, hn, -, -⟩ := serve_traced_calls env (applyOptions opts).ServerName
    (applyOptions opts).Filters (resolvePropagators env (applyOptions opts))
    (resolveSpanNameFormatter (applyOptions opts))
    ((resolveTracerProvider env (applyOptions opts)).Tracer tracerName env.SemVersion)
    ctx next h2 _ rfl _ rfl (NewMiddleware env opts ctx next) rfl
  exact ⟨_, hs, hb, ⟨_, rfl⟩, by rw [hn]; rfl⟩

theorem traced_request_starts_one_server_span_witness :
    ((applyOptions (K := String) (S := Nat) []).Filters = [] ∨
      ∀ f ∈ (applyOptions (K := String) (S := Nat) []).Filters, f demoCtx = true) ∧
    ∃ start : SpanStart String Nat,
      spanStarts (NewMiddleware demoEnv [] demoCtx demoNotFound).events = [start] ∧
      spanStarts (beforeNext (NewMiddleware demoEnv [] demoCtx demoNotFound).events)
        = [start] ∧
      (∃ attrs, start.opts = [SpanStartOption.WithAttributes attrs,
        SpanStartOption.WithSpanKind SpanKind.SpanKindServer]) ∧
      (nextCalls (NewMiddleware demoEnv [] demoCtx demoNotFound).events).length = 1 :=
  ⟨Or.inl rfl,
    traced_request_starts_one_server_span demoEnv [] demoCtx demoNotFound (Or.inl rfl)⟩

/-- C10: the handler of `NewMiddleware` calls the configured filters in
configuration order, each at most once, and stops at the first that returns
false: the filters called are those at the indices `0, 1, ..., n - 1`, in
this order, where `n` is the length of the list when every filter returns
true, and `k + 1` when the filter at index `k` is the first to return
false. -/
theorem filters_called_in_order_up_to_first_rejection {K S : Type} (env : Externals K S)
    (opts : List (optionFunc K S)) (ctx : Context K) (next : Chain K) :
    filterCalls (NewMiddleware env opts ctx next).events
      = List.range (filtersInvoked ctx (applyOptions opts).Filters) ∧
    ((∀ f ∈ (applyOptions opts).Filters, f ctx = true) →
      filtersInvoked ctx (applyOptions opts).Filters = (applyOptions opts).Filters.length) ∧
    (∀ k (hk : k < (applyOptions opts).Filters.length),
      (applyOptions opts).Filters[k] ctx = false →
      (∀ j (hj : j < k), (applyOptions opts).Filters[j] ctx = true) →
      filtersInvoked ctx (applyOptions opts).Filters = k + 1) :=
  ⟨serve_filterCalls _ _ _ _ _ _ _ _,
    filtersInvoked_of_all_pass ctx _,
    filtersInvoked_of_first_rejection ctx _⟩

/-! ## Configuration -/

/-- C8: applying `WithTracerProvider(nil)` or `WithPropagators(nil)` to a
configuration returns it unchanged, every field included, and applying
either with a value that is not nil sets its field to that value. `apply`
is total: no option raises an error. -/
theorem nil_provider_and_propagator_are_ignored {K S : Type} (c : config K S) :
    (optionFunc.WithTracerProvider none).apply c = c ∧
    (optionFunc.WithPropagators none).apply c = c ∧
    (∀ p : TracerProvider K S,
      ((optionFunc.WithTracerProvider (some p)).apply c).TracerProvider = some p) ∧
    (∀ p : TextMapPropagator K,
      ((optionFunc.WithPropagators (S := S) (some p)).apply c).Propagators = some p) :=
  ⟨rfl, rfl, fun _ => rfl, fun _ => rfl⟩

/-- C9: each option leaves every field but its own as it was:
`WithPropagators` all but `Propagators`, `WithTracerProvider` all but
`TracerProvider`, `WithServiceName` all but `ServerName`,
`WithSpanNameFormatter` all but `SpanNameFormatter`, and `WithFilter(f...)`
all but `Filters`, which becomes the old list followed by `f`. After an
option list is applied to `config{}`, `Filters` is the concatenation, in
option order, of the arguments of its `WithFilter` options. -/
theorem option_changes_only_its_own_field {K S : Type} (c : config K S)
    (opts : List (optionFunc K S)) :
    (∀ p, ((optionFunc.WithPropagators p).apply c).ServerName = c.ServerName ∧
      ((optionFunc.WithPropagators p).apply c).TracerProvider = c.TracerProvider ∧
      ((optionFunc.WithPropagators p).apply c).Filters = c.Filters ∧
      ((optionFunc.WithPropagators p).apply c).SpanNameFormatter = c.SpanNameFormatter) ∧
    (∀ p, ((optionFunc.WithTracerProvider p).apply c).ServerName = c.ServerName ∧
      ((optionFunc.WithTracerProvider p).apply c).Propagators = c.Propagators ∧
      ((optionFunc.WithTracerProvider p).apply c).Filters = c.Filters ∧
      ((optionFunc.WithTracerProvider p).apply c).SpanNameFormatter = c.SpanNameFormatter) ∧
    (∀ n, ((optionFunc.WithServiceName n).apply c).TracerProvider = c.TracerProvider ∧
      ((optionFunc.WithServiceName n).apply c).Propagators = c.Propagators ∧
      ((optionFunc.WithServiceName n).apply c).Filters = c.Filters ∧
      ((optionFunc.WithServiceName n).apply c).SpanNameFormatter = c.SpanNameFormatter) ∧
    (∀ f, ((optionFunc.WithSpanNameFormatter f).apply c).ServerName = c.ServerName ∧
      ((optionFunc.WithSpanNameFormatter f).apply c).TracerProvider = c.TracerProvider ∧
      ((optionFunc.WithSpanNameFormatter f).apply c).Propagators = c.Propagators ∧
      ((optionFunc.WithSpanNameFormatter f).apply c).Filters = c.Filters) ∧
    (∀ f, ((optionFunc.WithFilter f).apply c).ServerName = c.ServerName ∧
      ((optionFunc.WithFilter f).apply c).TracerProvider = c.TracerProvider ∧
      ((optionFunc.WithFilter f).apply c).Propagators = c.Propagators ∧
      ((optionFunc.WithFilter f).apply c).SpanNameFormatter = c.SpanNameFormatter ∧
      ((optionFunc.WithFilter f).apply c).Filters = c.Filters ++ f) ∧
    (applyOptions opts).Filters = filterArguments opts := by
  refine ⟨?_, ?_, ?_, ?_, ?_, ?_⟩
  · intro p
    cases p <;> exact ⟨rfl, rfl, rfl, rfl⟩
  · intro p
    cases p <;> exact ⟨rfl, rfl, rfl, rfl⟩
  · exact fun _ => ⟨rfl, rfl, rfl, rfl⟩
  · exact fun _ => ⟨rfl, rfl, rfl, rfl⟩
  · exact fun _ => ⟨rfl, rfl, rfl, rfl, rfl⟩
  · unfold applyOptions
    rw [foldl_apply_Filters]
    rfl

/-! ## The span -/

/-- C3: for a traced request, the name handed to `tracer.Start` is the
output, on the request, of the function the option list sets (the function
of its last `WithSpanNameFormatter` option, when that function is not nil),
and `ctx.RouteName()` when the list sets none. -/
theorem span_name_is_formatter_output_or_route_name {K S : Type} (env : Externals K S)
    (opts : List (optionFunc K S)) (ctx : Context K) (next : Chain K)
    (h : ∀ f ∈ (applyOptions opts).Filters, f ctx = true) :
    (spanStarts (NewMiddleware env opts ctx next).events).map (fun start => start.spanName)
      = [match configuredSpanNameFormatter opts with
         | some f => f ctx
         | none => ctx.RouteName] := by
  obtain ⟨hs, -, -, -, -⟩ := serve_traced_calls env (applyOptions opts).ServerName
    (applyOptions opts).Filters (resolvePropagators env (applyOptions opts))
    (resolveSpanNameFormatter (applyOptions opts))
    ((resolveTracerProvider env (applyOptions opts)).Tracer tracerName env.SemVersion)
    ctx next h _ rfl _ rfl (NewMiddleware env opts ctx next) rfl
  rw [hs]
  simp only [List.map_cons, List.map_nil, resolveSpanNameFormatter,
    applyOptions_SpanNameFormatter]
  cases configuredSpanNameFormatter opts <;> rfl

theorem span_name_is_formatter_output_or_route_name_witness :
    (∀ f ∈ (applyOptions (K := String) (S := Nat)
        [optionFunc.WithSpanNameFormatter (some fun c => c.request.Method ++ " " ++ c.RoutePath),
         optionFunc.WithFilter [fun _ => true]]).Filters, f demoCtx = true) ∧
    (spanStarts (NewMiddleware demoEnv
        [optionFunc.WithSpanNameFormatter (some fun c => c.request.Method ++ " " ++ c.RoutePath),
         optionFunc.WithFilter [fun _ => true]] demoCtx demoNotFound).events).map
        (fun start => start.spanName)
      = [match configuredSpanNameFormatter (K := String) (S := Nat)
          [optionFunc.WithSpanNameFormatter
             (some fun c => c.request.Method ++ " " ++ c.RoutePath),
           optionFunc.WithFilter [fun _ => true]] with
         | some f => f demoCtx
         | none => demoCtx.RouteName] :=
  have h : ∀ f ∈ (applyOptions (K := String) (S := Nat)
      [optionFunc.WithSpanNameFormatter (some fun c => c.request.Method ++ " " ++ c.RoutePath),
       optionFunc.WithFilter [fun _ => true]]).Filters, f demoCtx = true := by
    simp [applyOptions, optionFunc.apply]
  ⟨h, span_name_is_formatter_output_or_route_name demoEnv _ demoCtx demoNotFound h⟩

/-- The attributes of the one call of `tracer.Start` on the traced path end
with `semconv.HTTPRoute(ctx.Path())`. -/
theorem start_attributes_of_traced_request {K S : Type} (env : Externals K S)
    (opts : List (optionFunc K S)) (ctx : Context K) (next : Chain K)
    (h : ∀ f ∈ (applyOptions opts).Filters, f ctx = true) :
    (spanStarts (NewMiddleware env opts ctx next).events).map
        (fun start => startAttributes start.opts)
      = [env.ServerRequest (applyOptions opts).ServerName ctx.request
          ++ [HTTPRoute ctx.Path]] := by
  obtain ⟨hs, -, -, -, -⟩ := serve_traced_calls env (applyOptions opts).ServerName
    (applyOptions opts).Filters (resolvePropagators env (applyOptions opts))
    (resolveSpanNameFormatter (applyOptions opts))
    ((resolveTracerProvider env (applyOptions opts)).Tracer tracerName env.SemVersion)
    ctx next h _ rfl _ rfl (NewMiddleware env opts ctx next) rfl
  rw [hs]
  simp [startAttributes, startOptions]

/-- C4, evaluated on the request `GET /items/42` served by the route
registered as `/items/{id}`: the `http.route` attribute the handler puts on
the span at start is `/items/42`, the path of the request, and not the
pattern of the matched route. -/
theorem http_route_attribute_is_the_request_path :
    demoCtx.request.Method = "GET" ∧ demoCtx.Path = "/items/42" ∧
    demoCtx.RoutePath = "/items/\x7bid\x7d" ∧
    (spanStarts (NewMiddleware demoEnv [] demoCtx demoNotFound).events).map
        (fun start => valuesOf "http.route" (startAttributes start.opts))
      = [[Value.STRING "/items/42"]] := by
  decide

/-- C5: for a traced request whose handler returns with the context in
state `ctx2`, that state is the one in which the downstream chain left the
context, and the handler calls `SetStatus` once, with
`httpconv.ServerStatus` of the status code of `ctx2`, and `SetAttributes`
once, with `http.status_code` set to that same code, both on the span it
started. The status is a function of the code alone; it is unset for 200
and for 404, and the error status for 500. -/
theorem span_status_follows_final_status_code {K S : Type} (env : Externals K S)
    (opts : List (optionFunc K S)) (ctx : Context K) (next : Chain K)
    (h : ∀ f ∈ (applyOptions opts).Filters, f ctx = true) (ctx2 : Context K)
    (hret : (NewMiddleware env opts ctx next).outcome = Outcome.returned ctx2) :
    (∃ start : SpanStart K S, ∃ ctx1 : Context K,
      spanStarts (NewMiddleware env opts ctx next).events = [start] ∧
      nextCalls (NewMiddleware env opts ctx next).events = [ctx1] ∧
      next ctx1 = Outcome.returned ctx2 ∧
      statusSets (NewMiddleware env opts ctx next).events
        = [(start.span, (ServerStatus ctx2.StatusCode).1, (ServerStatus ctx2.StatusCode).2)] ∧
      attributeSets (NewMiddleware env opts ctx next).events
        = [(start.span,
            [{ Key := "http.status_code", Value := Value.INT64 ctx2.StatusCode }])]) ∧
    ServerStatus 200 = (Code.Unset, "") ∧
    ServerStatus 404 = (Code.Unset, "") ∧
    ServerStatus 500 = (Code.Error, "") := by
  obtain ⟨hs, -, hn, -, hout⟩ := serve_traced_calls env (applyOptions opts).ServerName
    (applyOptions opts).Filters (resolvePropagators env (applyOptions opts))
    (resolveSpanNameFormatter (applyOptions opts))
    ((resolveTracerProvider env (applyOptions opts)).Tracer tracerName env.SemVersion)
    ctx next h _ rfl _ rfl (NewMiddleware env opts ctx next) rfl
  rw [hret] at hout
  obtain ⟨hst, hat⟩ := serve_traced_returned_sets env (applyOptions opts).ServerName
    (applyOptions opts).Filters (resolvePropagators env (applyOptions opts))
    (resolveSpanNameFormatter (applyOptions opts))
    ((resolveTracerProvider env (applyOptions opts)).Tracer tracerName env.SemVersion)
    ctx next h _ rfl _ rfl ctx2 hout.symm (NewMiddleware env opts ctx next) rfl
  exact ⟨⟨_, _, hs, hn, hout.symm, hst, hat⟩, by decide, by decide, by decide⟩

theorem span_status_follows_final_status_code_witness :
    (∀ f ∈ (applyOptions (K := String) (S := Nat) []).Filters, f demoCtx = true) ∧
    (NewMiddleware demoEnv [] demoCtx demoNotFound).outcome = Outcome.returned demoAnswered ∧
    (∃ start : SpanStart String Nat, ∃ ctx1 : Context String,
      spanStarts (NewMiddleware demoEnv [] demoCtx demoNotFound).events = [start] ∧
      nextCalls (NewMiddleware demoEnv [] demoCtx demoNotFound).events = [ctx1] ∧
      demoNotFound ctx1 = Outcome.returned demoAnswered ∧
      statusSets (NewMiddleware demoEnv [] demoCtx demoNotFound).events
        = [(start.span, (ServerStatus demoAnswered.StatusCode).1,
            (ServerStatus demoAnswered.StatusCode).2)] ∧
      attributeSets (NewMiddleware demoEnv [] demoCtx demoNotFound).events
        = [(start.span,
            [{ Key := "http.status_code", Value := Value.INT64 demoAnswered.StatusCode }])]) ∧
    ServerStatus 200 = (Code.Unset, "") ∧
    ServerStatus 404 = (Code.Unset, "") ∧
    ServerStatus 500 = (Code.Error, "") :=
  have h : ∀ f ∈ (applyOptions (K := String) (S := Nat) []).Filters, f demoCtx = true := by
    simp [applyOptions]
  have hret : (NewMiddleware demoEnv [] demoCtx demoNotFound).outcome
      = Outcome.returned demoAnswered := by
    decide
  ⟨h, hret,
    span_status_follows_final_status_code demoEnv [] demoCtx demoNotFound h demoAnswered hret⟩

/-- C6: for a traced request, `ctx.Next()` is called once, after the one
call of `tracer.Start`, on a context that differs from the one the handler
received in the request's context only: that one is the context returned by
the handler's call of `tracer.Start`, the call that returned the span the
handler started. The call is made on the tracer of the configured provider,
and its parent argument is what the configured propagator extracted from the
request's context and headers, where configured means: given by the last
`WithPropagators` (`WithTracerProvider`) option of the list whose argument
is not nil, and the process-wide default when there is none. -/
theorem downstream_sees_context_of_started_span {K S : Type} (env : Externals K S)
    (opts : List (optionFunc K S)) (ctx : Context K) (next : Chain K)
    (h : ∀ f ∈ (applyOptions opts).Filters, f ctx = true) :
    ∃ start : SpanStart K S,
      spanStarts (NewMiddleware env opts ctx next).events = [start] ∧
      spanStarts (beforeNext (NewMiddleware env opts ctx next).events) = [start] ∧
      start.parent = (configuredPropagators env opts).Extract
        ctx.request.ctx ctx.request.Header ∧
      start.span
        = ((configuredTracer env opts).Start start.parent start.spanName start.opts).2 ∧
      nextCalls (NewMiddleware env opts ctx next).events
        = [{ ctx with request := { ctx.request with
              ctx := ((configuredTracer env opts).Start start.parent start.spanName
                start.opts).1 } }] := by
  obtain ⟨hs, hb, hn, -, -⟩ := serve_traced_calls env (applyOptions opts).ServerName
    (applyOptions opts).Filters (resolvePropagators env (applyOptions opts))
    (resolveSpanNameFormatter (applyOptions opts))
    ((resolveTracerProvider env (applyOptions opts)).Tracer tracerName env.SemVersion)
    ctx next h _ rfl _ rfl (NewMiddleware env opts ctx next) rfl
  rw [resolvePropagators_applyOptions, resolveTracerProvider_applyOptions] at hs hb hn
  exact ⟨_, hs, hb, rfl, rfl, hn⟩

theorem downstream_sees_context_of_started_span_witness :
    (∀ f ∈ (applyOptions demoCustomOptions).Filters, f demoCtx = true) ∧
    (∃ start : SpanStart String Nat,
      spanStarts (NewMiddleware demoEnv demoCustomOptions demoCtx demoNotFound).events
        = [start] ∧
      spanStarts (beforeNext
        (NewMiddleware demoEnv demoCustomOptions demoCtx demoNotFound).events) = [start] ∧
      start.parent = (configuredPropagators demoEnv demoCustomOptions).Extract
        demoCtx.request.ctx demoCtx.request.Header ∧
      start.span = ((configuredTracer demoEnv demoCustomOptions).Start start.parent
        start.spanName start.opts).2 ∧
      nextCalls (NewMiddleware demoEnv demoCustomOptions demoCtx demoNotFound).events
        = [{ demoCtx with request := { demoCtx.request with
              ctx := ((configuredTracer demoEnv demoCustomOptions).Start start.parent
                start.spanName start.opts).1 } }]) ∧
    (configuredPropagators demoEnv demoCustomOptions).Extract
        demoCtx.request.ctx demoCtx.request.Header = "background+custom" ∧
    demoEnv.GetTextMapPropagator.Extract demoCtx.request.ctx demoCtx.request.Header
      = "background+remote:00-0af7651916cd43dd8448eb211c80319c-b7ad6b7169203331-01" ∧
    (spanStarts (NewMiddleware demoEnv demoCustomOptions demoCtx demoNotFound).events).map
        (fun start => (start.parent, start.span)) = [("background+custom", 7)] ∧
    (nextCalls (NewMiddleware demoEnv demoCustomOptions demoCtx demoNotFound).events).map
        (fun c => c.request.ctx) = ["background+custom+own:GET/items/\x7bid\x7d"] :=
  have h : ∀ f ∈ (applyOptions demoCustomOptions).Filters, f demoCtx = true := by
    simp [applyOptions, demoCustomOptions, optionFunc.apply]
  ⟨h, downstream_sees_context_of_started_span demoEnv demoCustomOptions demoCtx demoNotFound h,
    by decide, by decide, by decide, by decide⟩

/-- C7: for a traced request, the span the handler started is ended exactly
once, by the last call the handler makes, whether the downstream chain
returns or panics; and the handler ends the way the chain ended: a panic of
the chain leaves the handler with the same value. -/
theorem started_span_is_ended_exactly_once {K S : Type} (env : Externals K S)
    (opts : List (optionFunc K S)) (ctx : Context K) (next : Chain K)
    (h : ∀ f ∈ (applyOptions opts).Filters, f ctx = true) :
    ∃ start : SpanStart K S, ∃ ctx1 : Context K,
      spanStarts (NewMiddleware env opts ctx next).events = [start] ∧
      spanEnds (NewMiddleware env opts ctx next).events = [start.span] ∧
      (NewMiddleware env opts ctx next).events.getLast? = some (Event.End start.span) ∧
      nextCalls (NewMiddleware env opts ctx next).events = [ctx1] ∧
      (NewMiddleware env opts ctx next).outcome = next ctx1 ∧
      (∀ v, next ctx1 = Outcome.panicked v →
        (NewMiddleware env opts ctx next).outcome = Outcome.panicked v) := by
  obtain ⟨hs, -, hn, he, hout⟩ := serve_traced_calls env (applyOptions opts).ServerName
    (applyOptions opts).Filters (resolvePropagators env (applyOptions opts))
    (resolveSpanNameFormatter (applyOptions opts))
    ((resolveTracerProvider env (applyOptions opts)).Tracer tracerName env.SemVersion)
    ctx next h _ rfl _ rfl (NewMiddleware env opts ctx next) rfl
  have hl := serve_traced_last env (applyOptions opts).ServerName
    (applyOptions opts).Filters (resolvePropagators env (applyOptions opts))
    (resolveSpanNameFormatter (applyOptions opts))
    ((resolveTracerProvider env (applyOptions opts)).Tracer tracerName env.SemVersion)
    ctx next h _ rfl _ rfl
  exact ⟨_, _, hs, he, hl, hn, hout, fun v hv => hout.trans hv⟩

theorem started_span_is_ended_exactly_once_witness :
    (∀ f ∈ (applyOptions (K := String) (S := Nat) []).Filters, f demoCtx = true) ∧
    ∃ start : SpanStart String Nat, ∃ ctx1 : Context String,
      spanStarts (NewMiddleware demoEnv [] demoCtx demoPanic).events = [start] ∧
      spanEnds (NewMiddleware demoEnv [] demoCtx demoPanic).events = [start.span] ∧
      (NewMiddleware demoEnv [] demoCtx demoPanic).events.getLast?
        = some (Event.End start.span) ∧
      nextCalls (NewMiddleware demoEnv [] demoCtx demoPanic).events = [ctx1] ∧
      (NewMiddleware demoEnv [] demoCtx demoPanic).outcome = demoPanic ctx1 ∧
      (∀ v, demoPanic ctx1 = Outcome.panicked v →
        (NewMiddleware demoEnv [] demoCtx demoPanic).outcome = Outcome.panicked v) :=
  have h : ∀ f ∈ (applyOptions (K := String) (S := Nat) []).Filters, f demoCtx = true := by
    simp [applyOptions]
  ⟨h, started_span_is_ended_exactly_once demoEnv [] demoCtx demoPanic h⟩

end oteliris
